import Mathlib

/-!
# Verification of `traductor_ppt.py`

Shallow embedding of the run-aware paragraph translation and redistribution
algorithm of the PowerPoint translator, together with its provider wrappers,
filename derivation, save/retry logic and archival copy.  Run texts are
modelled as `String`; a paragraph is the ordered list of its runs' texts
(formatting attributes are opaque and never touched by the code, so they are
not modelled).  External effects (translation backends, the filesystem, the
presentation container) are modelled as explicit oracle parameters.
-/

set_option autoImplicit false

namespace Traductor

/-- Characters stripped by Python's `str.strip()`: space, tab, newline,
carriage return, vertical tab, form feed. -/
def esEspacio (c : Char) : Bool :=
  c = ' ' || c = '\t' || c = '\n' || c = '\r' || c = Char.ofNat 11 || c = Char.ofNat 12

/-- Model of Python's `str.strip()`: drop whitespace from both ends. -/
def pyStrip (s : String) : String :=
  String.mk (((s.data.dropWhile esEspacio).reverse.dropWhile esEspacio).reverse)

/-- Truthiness of `s.strip()` negated: `not s.strip()` in the source, i.e. the
string is empty or whitespace-only. -/
def esBlanco (s : String) : Bool :=
  pyStrip s = ""

/-- `texto_completo = ""` followed by `texto_completo += run.text` over a list
of run texts (source lines 203–211); also python-pptx's `paragraph.text`,
the concatenation of the runs' texts. -/
def concatRuns (runs : List String) : String :=
  runs.foldl (· ++ ·) ""

/-- Outcome of one remote backend call, as seen from inside the provider's
`try` block: a returned string, a `None` result, or a raised exception. -/
inductive RespuestaBackend where
  | exito (s : String)
  | nula
  | excepcion
deriving DecidableEq

/-- `traducir_texto_google` (source lines 36–64): call the backend; a `None`
result or any exception falls back to the original text. -/
def traducir_texto_google (backend : String → String → String → RespuestaBackend)
    (texto idioma_destino idioma_origen : String) : String :=
  match backend texto idioma_destino idioma_origen with
  | .exito resultado => resultado
  | .nula => texto
  | .excepcion => texto

/-- The `idiomas` lookup table of `traducir_texto_openai` (source lines
80–98): language code to full name, unknown codes pass through verbatim. -/
def nombreIdioma (codigo : String) : String :=
  if codigo = "en" then "English"
  else if codigo = "es" then "Spanish"
  else if codigo = "fr" then "French"
  else if codigo = "de" then "German"
  else if codigo = "it" then "Italian"
  else if codigo = "pt" then "Portuguese"
  else if codigo = "ru" then "Russian"
  else if codigo = "zh" then "Chinese"
  else if codigo = "ja" then "Japanese"
  else if codigo = "ko" then "Korean"
  else if codigo = "ar" then "Arabic"
  else if codigo = "hi" then "Hindi"
  else if codigo = "auto" then "auto-detected language"
  else codigo

/-- `traducir_texto_openai` (source lines 66–120): the backend receives the
text and the mapped language names; a successful completion is stripped; a
`None` content (whose `.strip()` raises) or any exception falls back to the
original text. -/
def traducir_texto_openai (backend : String → String → String → RespuestaBackend)
    (texto idioma_destino idioma_origen : String) : String :=
  match backend texto (nombreIdioma idioma_destino) (nombreIdioma idioma_origen) with
  | .exito resultado => pyStrip resultado
  | .nula => texto
  | .excepcion => texto

/-- `traducir_texto` (source lines 122–141): the dispatcher.  `texto` is an
optional string (`None` is a legal Python argument); a falsy or
whitespace-only text is returned unchanged without consulting a provider.
The second component counts the provider-variant calls made. -/
def traducir_texto (gbackend obackend : String → String → String → RespuestaBackend)
    (texto : Option String) (idioma_destino idioma_origen metodo : String) :
    Option String × Nat :=
  match texto with
  | none => (none, 0)
  | some t =>
    if t = "" ∨ esBlanco t = true then (some t, 0)
    else if metodo = "openai" then
      (some (traducir_texto_openai obackend t idioma_destino idioma_origen), 1)
    else
      (some (traducir_texto_google gbackend t idioma_destino idioma_origen), 1)

/-- The redistribution step of `traducir_presentacion` (source lines 231–240):
the first retained (non-blank) run receives the whole translated text, every
other retained run is emptied, runs that were blank are left untouched.  The
source's `len(runs_info) == 1` branch is the special case with no "other"
retained runs. -/
def redistribuir (texto_traducido : String) : List String → List String
  | [] => []
  | t :: resto =>
    if esBlanco t then t :: redistribuir texto_traducido resto
    else texto_traducido :: resto.map (fun u => if esBlanco u then u else "")

/-- The per-paragraph body of `traducir_presentacion` (source lines 196–240),
with the translation call abstracted as `tr` (`none` models the `is None`
check of line 227).  Returns the paragraph's run texts after processing and
the number of translation calls made. -/
def procesar_parrafo (tr : String → Option String) (runs : List String) :
    List String × Nat :=
  if esBlanco (concatRuns runs) then (runs, 0)
  else
    let texto_completo := concatRuns (runs.filter (fun t => !(esBlanco t)))
    if esBlanco texto_completo then (runs, 0)
    else
      match tr texto_completo with
      | none => (runs, 1)
      | some texto_traducido => (redistribuir texto_traducido runs, 1)

/-- The translation function the walker actually passes a paragraph's text to
(source line 224): the dispatcher closed over the configured backends,
languages and method. -/
def traductorParrafo (gbackend obackend : String → String → String → RespuestaBackend)
    (idioma_destino idioma_origen metodo : String) : String → Option String :=
  fun texto => (traducir_texto gbackend obackend (some texto) idioma_destino idioma_origen metodo).1

/-- Index of the last `'.'` in a character list, if any. -/
def idxUltimoPunto (l : List Char) : Option Nat :=
  ((l.enum.filter (fun p => p.2 = '.')).map (fun p => p.1)).getLast?

/-- Model of `os.path.splitext` on a base name (no directory separators):
split at the last dot, unless every character before it is a dot. -/
def splitext (s : String) : String × String :=
  match idxUltimoPunto s.data with
  | none => (s, "")
  | some i =>
    if (s.data.take i).any (fun c => c ≠ '.') then
      (String.mk (s.data.take i), String.mk (s.data.drop i))
    else (s, "")

/-- Output file name (source line 165): stem of the input's base name,
`_traducido_`, the target language code, and always the `.pptx` extension. -/
def nombreArchivoTraducido (nombre_base idioma_destino : String) : String :=
  (splitext nombre_base).1 ++ "_traducido_" ++ idioma_destino ++ ".pptx"

/-- Alternate output file name with timestamp (source lines 177–178 and
260–261). -/
def nombreArchivoTraducidoTs (nombre_base idioma_destino ts : String) : String :=
  (splitext nombre_base).1 ++ "_traducido_" ++ idioma_destino ++ "_" ++ ts ++ ".pptx"

/-- `os.path.join(CARPETA_TRADUCIDOS, archivo)` for a relative file name. -/
def rutaTraducida (archivo : String) : String :=
  "traducidos/" ++ archivo

/-- The output path first computed at line 166. -/
def rutaSalida (nombre_base idioma_destino : String) : String :=
  rutaTraducida (nombreArchivoTraducido nombre_base idioma_destino)

/-- The timestamp-suffixed output path of lines 179 and 262. -/
def rutaSalidaTs (nombre_base idioma_destino ts : String) : String :=
  rutaTraducida (nombreArchivoTraducidoTs nombre_base idioma_destino ts)

/-- Outcome of one `presentacion.save(ruta)` call. -/
inductive ResultadoGuardar where
  | exito
  | errorPermiso
  | otroError
deriving DecidableEq

/-- The output path actually passed to the first `presentacion.save` call:
the collision pre-check of lines 169–180 switches to the timestamped name
when the computed path exists and opening it for append raises
`PermissionError`. -/
def rutaElegida (existe bloqueado : String → Bool) (nombre_base idioma_destino ts1 : String) :
    String :=
  if existe (rutaSalida nombre_base idioma_destino) &&
      bloqueado (rutaSalida nombre_base idioma_destino) then
    rutaSalidaTs nombre_base idioma_destino ts1
  else rutaSalida nombre_base idioma_destino

/-- The open/name/save skeleton of `traducir_presentacion` (source lines
156–274), with the in-memory translation pass elided (it touches no file).
`abrirExito` is whether `Presentation(ruta_archivo)` succeeds; `existe` and
`bloqueado` model the pre-save collision check of lines 169–180 (`bloqueado`
is "opening for append raises `PermissionError`"); `guardar` models
`presentacion.save`; `ts1`/`ts2` are the timestamps taken at lines 177 and
260.  Returns the value of the Python function (`None` on failure) and the
number of save attempts made. -/
def traducir_presentacion (abrirExito : Bool) (existe bloqueado : String → Bool)
    (guardar : String → ResultadoGuardar)
    (nombre_base idioma_destino ts1 ts2 : String) : Option String × Nat :=
  if !abrirExito then (none, 0)
  else
    let ruta := rutaElegida existe bloqueado nombre_base idioma_destino ts1
    match guardar ruta with
    | .exito => (some ruta, 1)
    | .errorPermiso =>
      match guardar (rutaSalidaTs nombre_base idioma_destino ts2) with
      | .exito => (some (rutaSalidaTs nombre_base idioma_destino ts2), 2)
      | _ => (none, 2)
    | .otroError => (none, 1)

/-- The name the specification derives for the output file: stem, the literal
`_translated_`, the target language code, and the input's own extension. -/
def nombreSegunSpec (nombre_base idioma_destino : String) : String :=
  (splitext nombre_base).1 ++ "_translated_" ++ idioma_destino ++ (splitext nombre_base).2

/-- An absolute file path, split as the directory of `os.path.dirname` plus
the base name. -/
structure Ruta where
  dir : String
  base : String
deriving DecidableEq

/-- `mover_a_originales` (source lines 276–300) over a filesystem modelled as
a map from paths to contents: if the file already sits in the originals
directory it is returned as is; otherwise `shutil.copy2` duplicates its
content under the originals directory and the new path is returned. -/
def mover_a_originales (fs : Ruta → Option String) (carpeta_originales : String)
    (ruta_archivo : Ruta) : (Ruta → Option String) × Ruta :=
  if ruta_archivo.dir = carpeta_originales then (fs, ruta_archivo)
  else
    let nueva_ruta : Ruta := ⟨carpeta_originales, ruta_archivo.base⟩
    (fun p => if p = nueva_ruta then fs ruta_archivo else fs p, nueva_ruta)

/-! ## Helper lemmas about stripping and concatenation -/

theorem all_of_dropWhile_all {α} (p : α → Bool) (l : List α)
    (h : ∀ x ∈ l.dropWhile p, p x = true) : ∀ x ∈ l, p x = true := by
  induction l with
  | nil => intro x hx; cases hx
  | cons a l ih =>
    by_cases ha : p a = true
    · intro x hx
      rcases List.mem_cons.mp hx with rfl | hx
      · exact ha
      · exact ih (by simpa [List.dropWhile_cons, ha] using h) x hx
    · exfalso
      exact ha (h a (by simp [List.dropWhile_cons, ha]))

theorem dropWhile_both_nil_iff {α} (p : α → Bool) (l : List α) :
    (l.dropWhile p).reverse.dropWhile p = [] ↔ ∀ x ∈ l, p x = true := by
  constructor
  · intro h
    refine all_of_dropWhile_all p l ?_
    intro x hx
    exact (List.dropWhile_eq_nil_iff.mp h) x (List.mem_reverse.mpr hx)
  · intro h
    have : l.dropWhile p = [] := List.dropWhile_eq_nil_iff.mpr h
    simp [this]

theorem pyStrip_eq_empty_iff (s : String) :
    pyStrip s = "" ↔ ∀ c ∈ s.data, esEspacio c = true := by
  unfold pyStrip
  rw [show ("" : String) = String.mk [] from rfl]
  constructor
  · intro h
    have h' : ((s.data.dropWhile esEspacio).reverse.dropWhile esEspacio).reverse = [] :=
      congrArg String.data h
    exact (dropWhile_both_nil_iff esEspacio s.data).mp (List.reverse_eq_nil_iff.mp h')
  · intro h
    have h' := (dropWhile_both_nil_iff esEspacio s.data).mpr h
    rw [h']
    rfl

theorem esBlanco_iff (s : String) :
    esBlanco s = true ↔ ∀ c ∈ s.data, esEspacio c = true := by
  unfold esBlanco
  rw [decide_eq_true_iff]
  exact pyStrip_eq_empty_iff s

theorem esBlanco_append (s t : String) :
    esBlanco (s ++ t) = true ↔ esBlanco s = true ∧ esBlanco t = true := by
  simp only [esBlanco_iff, String.data_append, List.mem_append]
  constructor
  · intro h
    exact ⟨fun c hc => h c (Or.inl hc), fun c hc => h c (Or.inr hc)⟩
  · rintro ⟨h₁, h₂⟩ c (hc | hc)
    · exact h₁ c hc
    · exact h₂ c hc

theorem foldl_append_acc (l : List String) (s : String) :
    l.foldl (· ++ ·) s = s ++ l.foldl (· ++ ·) "" := by
  induction l generalizing s with
  | nil => simp
  | cons t l ih =>
    show l.foldl (· ++ ·) (s ++ t) = s ++ l.foldl (· ++ ·) ("" ++ t)
    rw [ih (s ++ t), ih ("" ++ t)]
    simp [String.append_assoc]

theorem concatRuns_nil : concatRuns [] = "" := rfl

theorem concatRuns_cons (t : String) (l : List String) :
    concatRuns (t :: l) = t ++ concatRuns l := by
  show l.foldl (· ++ ·) ("" ++ t) = t ++ concatRuns l
  rw [foldl_append_acc]
  simp [concatRuns]

theorem esBlanco_concat_iff (l : List String) :
    esBlanco (concatRuns l) = true ↔ ∀ t ∈ l, esBlanco t = true := by
  induction l with
  | nil =>
    simp only [concatRuns_nil, List.not_mem_nil, false_implies, forall_const, iff_true]
    decide
  | cons t l ih =>
    rw [concatRuns_cons, esBlanco_append]
    simp [ih]

theorem existe_no_blanco (l : List String) (h : esBlanco (concatRuns l) = false) :
    ∃ t ∈ l, esBlanco t = false := by
  by_contra hc
  push_neg at hc
  have : ∀ t ∈ l, esBlanco t = true := by
    intro t ht
    rcases Bool.eq_false_or_eq_true (esBlanco t) with h' | h'
    · exact h'
    · exact absurd h' (hc t ht)
  rw [(esBlanco_concat_iff l).mpr this] at h
  cases h

theorem filtro_no_blanco (l : List String) (h : esBlanco (concatRuns l) = false) :
    esBlanco (concatRuns (l.filter (fun t => !(esBlanco t)))) = false := by
  obtain ⟨t, ht, hb⟩ := existe_no_blanco l h
  rcases Bool.eq_false_or_eq_true (esBlanco (concatRuns (l.filter (fun t => !(esBlanco t))))) with
    h' | h'
  · exfalso
    have hmem : t ∈ l.filter (fun t => !(esBlanco t)) :=
      List.mem_filter.mpr ⟨ht, by simp [hb]⟩
    have := (esBlanco_concat_iff _).mp h' t hmem
    rw [hb] at this
    cases this
  · exact h'

/-! ## Helper lemmas about redistribution -/

theorem length_redistribuir (T : String) (l : List String) :
    (redistribuir T l).length = l.length := by
  induction l with
  | nil => rfl
  | cons t resto ih =>
    rw [redistribuir]
    by_cases hb : esBlanco t = true
    · rw [if_pos hb]
      simp only [List.length_cons, ih]
    · rw [if_neg hb]
      simp only [List.length_cons, List.length_map]

theorem redistribuir_getElem? (T : String) (l : List String) (i : Nat) :
    (redistribuir T l)[i]? = l[i]?.map (fun t =>
      if esBlanco t = true then t
      else if i = l.findIdx (fun u => !(esBlanco u)) then T else "") := by
  induction l generalizing i with
  | nil => simp [redistribuir]
  | cons t resto ih =>
    rw [redistribuir]
    by_cases hb : esBlanco t = true
    · have hidx : (t :: resto).findIdx (fun u => !(esBlanco u)) =
          resto.findIdx (fun u => !(esBlanco u)) + 1 := by
        rw [List.findIdx_cons]
        simp [hb]
      rw [if_pos hb]
      cases i with
      | zero => simp [hb]
      | succ i =>
        rw [List.getElem?_cons_succ, List.getElem?_cons_succ, ih i, hidx]
        cases h : resto[i]? with
        | none => rfl
        | some u =>
          simp only [Option.map_some', Option.some.injEq]
          by_cases hu : esBlanco u = true
          · rw [if_pos hu, if_pos hu]
          · rw [if_neg hu, if_neg hu]
            by_cases hi : i = resto.findIdx (fun u => !(esBlanco u))
            · rw [if_pos hi, if_pos (by omega)]
            · rw [if_neg hi, if_neg (by omega)]
    · have hidx : (t :: resto).findIdx (fun u => !(esBlanco u)) = 0 := by
        rw [List.findIdx_cons]
        simp [hb]
      rw [if_neg hb]
      cases i with
      | zero =>
        rw [List.getElem?_cons_zero, List.getElem?_cons_zero, hidx]
        simp only [Option.map_some', Option.some.injEq]
        rw [if_neg hb]
        simp
      | succ i =>
        rw [List.getElem?_cons_succ, List.getElem?_cons_succ, hidx,
          List.getElem?_map _ resto i]
        cases h : resto[i]? with
        | none => rfl
        | some u =>
          simp only [Option.map_some', Option.some.injEq]
          by_cases hu : esBlanco u = true
          · rw [if_pos hu, if_pos hu]
          · rw [if_neg hu, if_neg hu, if_neg (Nat.succ_ne_zero i)]

theorem concatRuns_all_empty (l : List String) (h : ∀ t ∈ l, t = "") :
    concatRuns l = "" := by
  induction l with
  | nil => rfl
  | cons t resto ih =>
    rw [concatRuns_cons, h t (List.mem_cons_self t resto),
      ih (fun u hu => h u (List.mem_cons_of_mem t hu))]
    simp

theorem concat_redistribuir (T : String) (l : List String)
    (hex : ∃ t ∈ l, esBlanco t = false)
    (hvac : ∀ t ∈ l, esBlanco t = true → t = "") :
    concatRuns (redistribuir T l) = T := by
  induction l with
  | nil => obtain ⟨t, ht, -⟩ := hex; cases ht
  | cons t resto ih =>
    rw [redistribuir]
    by_cases hb : esBlanco t = true
    · rw [if_pos hb, concatRuns_cons, hvac t (List.mem_cons_self t resto) hb]
      have hex' : ∃ u ∈ resto, esBlanco u = false := by
        obtain ⟨u, hu, hbu⟩ := hex
        rcases List.mem_cons.mp hu with rfl | hu
        · rw [hb] at hbu; cases hbu
        · exact ⟨u, hu, hbu⟩
      rw [ih hex' (fun u hu => hvac u (List.mem_cons_of_mem t hu))]
      simp
    · rw [if_neg hb, concatRuns_cons]
      have : concatRuns (resto.map (fun u => if esBlanco u = true then u else "")) = "" := by
        refine concatRuns_all_empty _ ?_
        intro u hu
        obtain ⟨v, hv, rfl⟩ := List.mem_map.mp hu
        by_cases hbv : esBlanco v = true
        · rw [if_pos hbv]
          exact hvac v (List.mem_cons_of_mem t hv) hbv
        · rw [if_neg hbv]
      rw [this]
      simp

theorem filter_redistribuir (T : String) (l : List String)
    (hT : esBlanco T = false) (hex : ∃ t ∈ l, esBlanco t = false) :
    (redistribuir T l).filter (fun t => !(esBlanco t)) = [T] := by
  induction l with
  | nil => obtain ⟨t, ht, -⟩ := hex; cases ht
  | cons t resto ih =>
    rw [redistribuir]
    by_cases hb : esBlanco t = true
    · rw [if_pos hb, List.filter_cons_of_neg (by simp [hb])]
      have hex' : ∃ u ∈ resto, esBlanco u = false := by
        obtain ⟨u, hu, hbu⟩ := hex
        rcases List.mem_cons.mp hu with rfl | hu
        · rw [hb] at hbu; cases hbu
        · exact ⟨u, hu, hbu⟩
      exact ih hex'
    · rw [if_neg hb, List.filter_cons_of_pos (by simp [hT])]
      have : (resto.map (fun u => if esBlanco u = true then u else "")).filter
          (fun t => !(esBlanco t)) = [] := by
        rw [List.filter_eq_nil_iff]
        intro u hu
        obtain ⟨v, hv, rfl⟩ := List.mem_map.mp hu
        by_cases hbv : esBlanco v = true
        · simp [hbv]
        · simp only [if_neg hbv, Bool.not_eq_true]
          decide
      rw [this]

/-! ## Unfolding lemmas for the paragraph body and the dispatcher -/

theorem procesar_parrafo_blanco (tr : String → Option String) (runs : List String)
    (h : esBlanco (concatRuns runs) = true) :
    procesar_parrafo tr runs = (runs, 0) := by
  simp [procesar_parrafo, h]

theorem procesar_parrafo_traducido (tr : String → Option String) (runs : List String)
    (T : String) (h1 : esBlanco (concatRuns runs) = false)
    (h2 : tr (concatRuns (runs.filter (fun t => !(esBlanco t)))) = some T) :
    procesar_parrafo tr runs = (redistribuir T runs, 1) := by
  have hf := filtro_no_blanco runs h1
  simp [procesar_parrafo, h1, hf, h2]

theorem traductorParrafo_fallo (gb ob : String → String → String → RespuestaBackend)
    (idioma_destino idioma_origen metodo texto : String)
    (hg : ∀ a b c, gb a b c = RespuestaBackend.nula ∨ gb a b c = RespuestaBackend.excepcion)
    (ho : ∀ a b c, ob a b c = RespuestaBackend.nula ∨ ob a b c = RespuestaBackend.excepcion)
    (ht : esBlanco texto = false) :
    traductorParrafo gb ob idioma_destino idioma_origen metodo texto = some texto := by
  unfold traductorParrafo traducir_texto
  have hne : ¬(texto = "" ∨ esBlanco texto = true) := by
    rintro (rfl | h)
    · exact absurd ht (by decide)
    · rw [h] at ht; cases ht
  dsimp only
  rw [if_neg hne]
  by_cases hm : metodo = "openai"
  · rw [if_pos hm]
    unfold traducir_texto_openai
    rcases ho texto (nombreIdioma idioma_destino) (nombreIdioma idioma_origen) with h | h <;>
      rw [h]
  · rw [if_neg hm]
    unfold traducir_texto_google
    rcases hg texto idioma_destino idioma_origen with h | h <;> rw [h]

theorem traducir_presentacion_abierta (existe bloqueado : String → Bool)
    (guardar : String → ResultadoGuardar) (nombre_base idioma_destino ts1 ts2 : String) :
    traducir_presentacion true existe bloqueado guardar nombre_base idioma_destino ts1 ts2 =
      match guardar (rutaElegida existe bloqueado nombre_base idioma_destino ts1) with
      | .exito => (some (rutaElegida existe bloqueado nombre_base idioma_destino ts1), 1)
      | .errorPermiso =>
        match guardar (rutaSalidaTs nombre_base idioma_destino ts2) with
        | .exito => (some (rutaSalidaTs nombre_base idioma_destino ts2), 2)
        | _ => (none, 2)
      | .otroError => (none, 1) := rfl

/-! ## Claim theorems -/

/-- C1: for a processed paragraph with at least one retained (non-blank) run
whose aggregated text translates to `T`, the run at the first retained index
is set to `T`, every other retained run is set to the empty string, and runs
that were blank pre-translation keep their original text (the map below says
exactly this position by position; with exactly one retained run it reduces
to that run receiving `T`). -/
theorem c1_redistribucion (tr : String → Option String) (runs : List String) (T : String)
    (h1 : esBlanco (concatRuns runs) = false)
    (h2 : tr (concatRuns (runs.filter (fun t => !(esBlanco t)))) = some T) :
    (procesar_parrafo tr runs).1 = runs.enum.map (fun p =>
      if esBlanco p.2 = true then p.2
      else if p.1 = runs.findIdx (fun u => !(esBlanco u)) then T else "") := by
  rw [procesar_parrafo_traducido tr runs T h1 h2]
  apply List.ext_getElem?
  intro i
  rw [redistribuir_getElem?, List.getElem?_map, List.getElem?_enum]
  cases h : runs[i]? with
  | none => rfl
  | some u => rfl

/-- Witness for C1 at the spec's own end-to-end scenario plus a trailing
whitespace run. -/
theorem c1_redistribucion_witness :
    (procesar_parrafo (fun _ => some "Hola mundo") ["Hello ", "world", " "]).1 =
      ["Hola mundo", "", " "] := by
  have h := c1_redistribucion (fun _ => some "Hola mundo") ["Hello ", "world", " "]
    "Hola mundo" (by decide) (by decide)
  rw [h]
  decide

/-- C2 counterexample: paragraph with a whitespace-only run `" "` and a
retained run `"a"`, translation `"b"`.  The paragraph is translated (one
provider call, redistribution applied), the whitespace run keeps its text,
and the concatenation of all run texts is `" b"`, not `"b"`. -/
theorem c2_contraejemplo :
    procesar_parrafo (fun _ => some "b") [" ", "a"] = ([" ", "b"], 1) ∧
    concatRuns ((procesar_parrafo (fun _ => some "b") [" ", "a"]).1) ≠ "b" := by
  decide

/-- C2 amended: after redistribution the concatenation of all run texts
equals the translated string provided every run excluded from aggregation was
exactly the empty string (whitespace-only excluded runs keep their original
text and survive in the concatenation, which is what the counterexample
exploits). -/
theorem c2_concatenacion (tr : String → Option String) (runs : List String) (T : String)
    (h1 : esBlanco (concatRuns runs) = false)
    (h2 : tr (concatRuns (runs.filter (fun t => !(esBlanco t)))) = some T)
    (h3 : ∀ t ∈ runs, esBlanco t = true → t = "") :
    concatRuns ((procesar_parrafo tr runs).1) = T := by
  rw [procesar_parrafo_traducido tr runs T h1 h2]
  exact concat_redistribuir T runs (existe_no_blanco runs h1) h3

/-- Witness for C2 amended: two retained runs, no excluded runs. -/
theorem c2_concatenacion_witness :
    concatRuns ((procesar_parrafo (fun _ => some "Hola mundo") ["Hello ", "world"]).1) =
      "Hola mundo" :=
  c2_concatenacion (fun _ => some "Hola mundo") ["Hello ", "world"] "Hola mundo"
    (by decide) (by decide) (by decide)

/-- C3 counterexample: both backends raise internally, so the provider chain
returns the original aggregated text `"Hello world"`; the walker still
applies redistribution, leaving `["Hello world", ""]` — the runs are not
unchanged. -/
theorem c3_contraejemplo :
    procesar_parrafo (traductorParrafo (fun _ _ _ => RespuestaBackend.excepcion)
        (fun _ _ _ => RespuestaBackend.excepcion) "es" "auto" "google")
      ["Hello ", "world"] = (["Hello world", ""], 1) ∧
    (["Hello world", ""] : List String) ≠ ["Hello ", "world"] := by
  decide

/-- C3 amended: if the Translation Provider errors internally (every backend
call returns `None` or raises) the paragraph's text content is preserved —
the concatenation of the retained runs' texts after processing equals the
original aggregated text — but the runs themselves may be consolidated: the
first retained run receives the whole original text and the other retained
runs are emptied (only with exactly one retained run is every run literally
unchanged, as the counterexample shows). -/
theorem c3_texto_preservado (gb ob : String → String → String → RespuestaBackend)
    (idioma_destino idioma_origen metodo : String) (runs : List String)
    (hg : ∀ a b c, gb a b c = RespuestaBackend.nula ∨ gb a b c = RespuestaBackend.excepcion)
    (ho : ∀ a b c, ob a b c = RespuestaBackend.nula ∨ ob a b c = RespuestaBackend.excepcion)
    (h1 : esBlanco (concatRuns runs) = false) :
    concatRuns (((procesar_parrafo
        (traductorParrafo gb ob idioma_destino idioma_origen metodo) runs).1).filter
      (fun t => !(esBlanco t))) =
    concatRuns (runs.filter (fun t => !(esBlanco t))) := by
  have hf : esBlanco (concatRuns (runs.filter (fun t => !(esBlanco t)))) = false :=
    filtro_no_blanco runs h1
  have htr := traductorParrafo_fallo gb ob idioma_destino idioma_origen metodo
    (concatRuns (runs.filter (fun t => !(esBlanco t)))) hg ho hf
  rw [procesar_parrafo_traducido _ runs _ h1 htr]
  show concatRuns ((redistribuir _ runs).filter _) = _
  rw [filter_redistribuir _ runs hf (existe_no_blanco runs h1), concatRuns_cons, concatRuns_nil]
  simp

/-- Witness for C3 amended: the counterexample's paragraph, with the
retained-text concatenation preserved. -/
theorem c3_texto_preservado_witness :
    concatRuns (((procesar_parrafo (traductorParrafo
        (fun _ _ _ => RespuestaBackend.excepcion) (fun _ _ _ => RespuestaBackend.excepcion)
        "es" "auto" "google") ["Hello ", "world"]).1).filter (fun t => !(esBlanco t))) =
    concatRuns ((["Hello ", "world"] : List String).filter (fun t => !(esBlanco t))) :=
  c3_texto_preservado (fun _ _ _ => RespuestaBackend.excepcion)
    (fun _ _ _ => RespuestaBackend.excepcion) "es" "auto" "google" ["Hello ", "world"]
    (fun _ _ _ => Or.inr rfl) (fun _ _ _ => Or.inr rfl) (by decide)

/-- C5: a paragraph whose full (concatenated) text is empty or
whitespace-only is skipped: no translation call is made and the runs are
returned unchanged, for every translator. -/
theorem c5_parrafo_blanco (tr : String → Option String) (runs : List String)
    (h : esBlanco (concatRuns runs) = true) :
    procesar_parrafo tr runs = (runs, 0) :=
  procesar_parrafo_blanco tr runs h

/-- Witness for C5: the spec's all-whitespace scenario. -/
theorem c5_parrafo_blanco_witness :
    procesar_parrafo (fun _ => some "XXX") ["  ", "", " "] = (["  ", "", " "], 0) :=
  c5_parrafo_blanco (fun _ => some "XXX") ["  ", "", " "] (by decide)

/-- C6: processing a paragraph never changes the number of runs, for every
translator and every paragraph (the model rewrites run texts in place, so
position `i` after processing is the same run as position `i` before). -/
theorem c6_conteo_runs (tr : String → Option String) (runs : List String) :
    ((procesar_parrafo tr runs).1).length = runs.length := by
  by_cases h1 : esBlanco (concatRuns runs) = true
  · rw [procesar_parrafo_blanco tr runs h1]
  · rw [Bool.not_eq_true] at h1
    by_cases h2 : esBlanco (concatRuns (runs.filter (fun t => !(esBlanco t)))) = true
    · have : procesar_parrafo tr runs = (runs, 0) := by
        simp [procesar_parrafo, h1, h2]
      rw [this]
    · rw [Bool.not_eq_true] at h2
      cases h3 : tr (concatRuns (runs.filter (fun t => !(esBlanco t)))) with
      | none =>
        have : procesar_parrafo tr runs = (runs, 1) := by
          simp [procesar_parrafo, h1, h2, h3]
        rw [this]
      | some T =>
        rw [procesar_parrafo_traducido tr runs T h1 h3]
        exact length_redistribuir T runs

/-- C4: both provider variants are total (the embedding returns a `String`,
never raises and never returns an absent result), and on a backend failure —
a `None` backend result or a raised exception — each returns the original
input text unchanged. -/
theorem c4_proveedores_totales (gb ob : String → String → String → RespuestaBackend)
    (texto idioma_destino idioma_origen : String)
    (hg : gb texto idioma_destino idioma_origen = RespuestaBackend.nula ∨
          gb texto idioma_destino idioma_origen = RespuestaBackend.excepcion)
    (ho : ob texto (nombreIdioma idioma_destino) (nombreIdioma idioma_origen) =
            RespuestaBackend.nula ∨
          ob texto (nombreIdioma idioma_destino) (nombreIdioma idioma_origen) =
            RespuestaBackend.excepcion) :
    traducir_texto_google gb texto idioma_destino idioma_origen = texto ∧
    traducir_texto_openai ob texto idioma_destino idioma_origen = texto := by
  constructor
  · unfold traducir_texto_google
    rcases hg with h | h <;> rw [h]
  · unfold traducir_texto_openai
    rcases ho with h | h <;> rw [h]

/-- Witness for C4: a backend returning `None` and a backend raising. -/
theorem c4_proveedores_totales_witness :
    traducir_texto_google (fun _ _ _ => RespuestaBackend.nula) "Hola" "en" "auto" = "Hola" ∧
    traducir_texto_openai (fun _ _ _ => RespuestaBackend.excepcion) "Hola" "en" "auto" =
      "Hola" :=
  c4_proveedores_totales (fun _ _ _ => RespuestaBackend.nula)
    (fun _ _ _ => RespuestaBackend.excepcion) "Hola" "en" "auto"
    (Or.inl rfl) (Or.inr rfl)

/-- C9: the dispatcher returns a `None`, empty or whitespace-only input
unchanged with zero provider-variant calls, for every backend pair, language
pair and method. -/
theorem c9_texto_vacio (gb ob : String → String → String → RespuestaBackend)
    (texto : Option String) (idioma_destino idioma_origen metodo : String)
    (h : ∀ s, texto = some s → esBlanco s = true) :
    traducir_texto gb ob texto idioma_destino idioma_origen metodo = (texto, 0) := by
  cases texto with
  | none => rfl
  | some t =>
    unfold traducir_texto
    dsimp only
    rw [if_pos (Or.inr (h t rfl))]

/-- Witness for C9 at a whitespace-only input, with backends that would
return a different text if consulted. -/
theorem c9_texto_vacio_witness :
    traducir_texto (fun _ _ _ => RespuestaBackend.exito "X")
      (fun _ _ _ => RespuestaBackend.exito "X") (some "   ") "en" "auto" "google" =
      (some "   ", 0) :=
  c9_texto_vacio (fun _ _ _ => RespuestaBackend.exito "X")
    (fun _ _ _ => RespuestaBackend.exito "X") (some "   ") "en" "auto" "google"
    (fun s hs => by cases hs; decide)

/-- C7 counterexample: for input base name `bar.ppt` and target language
`en` the code derives `bar_traducido_en.pptx` — the literal token is
`_traducido_`, not `_translated_`, and the extension is always `.pptx`, so
the input's `.ppt` extension is not preserved, contrary to the spec's
`<original-stem>_translated_<targetLangCode>.<ext>`. -/
theorem c7_contraejemplo :
    nombreArchivoTraducido "bar.ppt" "en" = "bar_traducido_en.pptx" ∧
    nombreSegunSpec "bar.ppt" "en" = "bar_translated_en.ppt" ∧
    nombreArchivoTraducido "bar.ppt" "en" ≠ nombreSegunSpec "bar.ppt" "en" := by
  decide

/-- C7 amended: the output is written under
`<stem>_traducido_<targetLangCode>.pptx` in the fixed output directory (the
extension is always `.pptx`); when that path exists and is locked, the save
goes to a timestamp-suffixed name, at most one further save is attempted,
nothing is thrown (the model is total), and any returned path carries one of
the two timestamp suffixes. -/
theorem c7_nombre_salida (abrirExito : Bool) (existe bloqueado : String → Bool)
    (guardar : String → ResultadoGuardar) (nombre_base idioma_destino ts1 ts2 : String)
    (h1 : existe (rutaSalida nombre_base idioma_destino) = true)
    (h2 : bloqueado (rutaSalida nombre_base idioma_destino) = true) :
    (traducir_presentacion abrirExito existe bloqueado guardar
        nombre_base idioma_destino ts1 ts2).2 ≤ 2 ∧
    ((traducir_presentacion abrirExito existe bloqueado guardar
        nombre_base idioma_destino ts1 ts2).1 = none ∨
     (traducir_presentacion abrirExito existe bloqueado guardar
        nombre_base idioma_destino ts1 ts2).1 =
       some (rutaSalidaTs nombre_base idioma_destino ts1) ∨
     (traducir_presentacion abrirExito existe bloqueado guardar
        nombre_base idioma_destino ts1 ts2).1 =
       some (rutaSalidaTs nombre_base idioma_destino ts2)) := by
  have helegida : rutaElegida existe bloqueado nombre_base idioma_destino ts1 =
      rutaSalidaTs nombre_base idioma_destino ts1 := by
    unfold rutaElegida
    rw [h1, h2]
    rfl
  cases abrirExito with
  | false =>
    constructor
    · exact Nat.zero_le 2
    · exact Or.inl rfl
  | true =>
    rw [traducir_presentacion_abierta existe bloqueado guardar
      nombre_base idioma_destino ts1 ts2, helegida]
    cases hg1 : guardar (rutaSalidaTs nombre_base idioma_destino ts1) with
    | exito => exact ⟨Nat.le_succ 1, Or.inr (Or.inl rfl)⟩
    | errorPermiso =>
      cases hg2 : guardar (rutaSalidaTs nombre_base idioma_destino ts2) with
      | exito => exact ⟨Nat.le_refl 2, Or.inr (Or.inr rfl)⟩
      | errorPermiso => exact ⟨Nat.le_refl 2, Or.inl rfl⟩
      | otroError => exact ⟨Nat.le_refl 2, Or.inl rfl⟩
    | otroError => exact ⟨Nat.le_succ 1, Or.inl rfl⟩

/-- Witness for C7 amended: existing locked output path, first save denied,
timestamped retry succeeds. -/
theorem c7_nombre_salida_witness :
    (traducir_presentacion true (fun _ => true) (fun _ => true)
        (fun _ => ResultadoGuardar.exito) "bar.pptx" "en" "20240101_120000" "20240101_120001").2
      ≤ 2 ∧
    ((traducir_presentacion true (fun _ => true) (fun _ => true)
        (fun _ => ResultadoGuardar.exito) "bar.pptx" "en" "20240101_120000"
        "20240101_120001").1 = none ∨
     (traducir_presentacion true (fun _ => true) (fun _ => true)
        (fun _ => ResultadoGuardar.exito) "bar.pptx" "en" "20240101_120000"
        "20240101_120001").1 = some (rutaSalidaTs "bar.pptx" "en" "20240101_120000") ∨
     (traducir_presentacion true (fun _ => true) (fun _ => true)
        (fun _ => ResultadoGuardar.exito) "bar.pptx" "en" "20240101_120000"
        "20240101_120001").1 = some (rutaSalidaTs "bar.pptx" "en" "20240101_120001")) :=
  c7_nombre_salida true (fun _ => true) (fun _ => true) (fun _ => ResultadoGuardar.exito)
    "bar.pptx" "en" "20240101_120000" "20240101_120001" rfl rfl

/-- C10: the whole-presentation function never raises (the model is total)
and its result is fully characterized: `None` with zero saves when the
presentation cannot be opened; the chosen path exactly when its save
succeeds; `None` with no retry when the first save fails with a
non-permission error; on a permission error, the timestamped retry decides
between that path and `None`, with exactly two save attempts. -/
theorem c10_resultado_guardado (abrirExito : Bool) (existe bloqueado : String → Bool)
    (guardar : String → ResultadoGuardar) (nombre_base idioma_destino ts1 ts2 : String) :
    (abrirExito = false →
      traducir_presentacion abrirExito existe bloqueado guardar
        nombre_base idioma_destino ts1 ts2 = (none, 0)) ∧
    (abrirExito = true →
      guardar (rutaElegida existe bloqueado nombre_base idioma_destino ts1) =
        ResultadoGuardar.exito →
      traducir_presentacion abrirExito existe bloqueado guardar
          nombre_base idioma_destino ts1 ts2 =
        (some (rutaElegida existe bloqueado nombre_base idioma_destino ts1), 1)) ∧
    (abrirExito = true →
      guardar (rutaElegida existe bloqueado nombre_base idioma_destino ts1) =
        ResultadoGuardar.otroError →
      traducir_presentacion abrirExito existe bloqueado guardar
          nombre_base idioma_destino ts1 ts2 = (none, 1)) ∧
    (abrirExito = true →
      guardar (rutaElegida existe bloqueado nombre_base idioma_destino ts1) =
        ResultadoGuardar.errorPermiso →
      guardar (rutaSalidaTs nombre_base idioma_destino ts2) = ResultadoGuardar.exito →
      traducir_presentacion abrirExito existe bloqueado guardar
          nombre_base idioma_destino ts1 ts2 =
        (some (rutaSalidaTs nombre_base idioma_destino ts2), 2)) ∧
    (abrirExito = true →
      guardar (rutaElegida existe bloqueado nombre_base idioma_destino ts1) =
        ResultadoGuardar.errorPermiso →
      guardar (rutaSalidaTs nombre_base idioma_destino ts2) ≠ ResultadoGuardar.exito →
      traducir_presentacion abrirExito existe bloqueado guardar
          nombre_base idioma_destino ts1 ts2 = (none, 2)) := by
  refine ⟨?_, ?_, ?_, ?_, ?_⟩
  · rintro rfl
    rfl
  · rintro rfl h
    rw [traducir_presentacion_abierta, h]
  · rintro rfl h
    rw [traducir_presentacion_abierta, h]
  · rintro rfl h h'
    rw [traducir_presentacion_abierta, h, h']
  · rintro rfl h h'
    rw [traducir_presentacion_abierta, h]
    cases h2 : guardar (rutaSalidaTs nombre_base idioma_destino ts2) with
    | exito => exact absurd h2 h'
    | errorPermiso => rfl
    | otroError => rfl

/-- Witness for C10: open succeeds, no collision, first save succeeds. -/
theorem c10_resultado_guardado_witness :
    traducir_presentacion true (fun _ => false) (fun _ => false)
        (fun _ => ResultadoGuardar.exito) "bar.pptx" "en" "20240101_120000"
        "20240101_120001" =
      (some (rutaElegida (fun _ => false) (fun _ => false) "bar.pptx" "en"
        "20240101_120000"), 1) :=
  (c10_resultado_guardado true (fun _ => false) (fun _ => false)
    (fun _ => ResultadoGuardar.exito) "bar.pptx" "en" "20240101_120000"
    "20240101_120001").2.1 rfl rfl

/-- C8: archiving an input not already in the originals directory copies it
(the original path still maps to the same content afterwards) into the
originals directory under its base name with identical content; an input
already located in the originals directory is returned as is, with the
filesystem untouched. -/
theorem c8_copia_a_originales (fs : Ruta → Option String) (carpeta : String) (ruta : Ruta) :
    (ruta.dir = carpeta → mover_a_originales fs carpeta ruta = (fs, ruta)) ∧
    (ruta.dir ≠ carpeta →
      (mover_a_originales fs carpeta ruta).2 = ⟨carpeta, ruta.base⟩ ∧
      (mover_a_originales fs carpeta ruta).1 ⟨carpeta, ruta.base⟩ = fs ruta ∧
      (mover_a_originales fs carpeta ruta).1 ruta = fs ruta) := by
  constructor
  · intro h
    unfold mover_a_originales
    rw [if_pos h]
  · intro h
    unfold mover_a_originales
    rw [if_neg h]
    refine ⟨rfl, ?_, ?_⟩
    · show (if (⟨carpeta, ruta.base⟩ : Ruta) = ⟨carpeta, ruta.base⟩ then fs ruta else _) = fs ruta
      rw [if_pos rfl]
    · show (if ruta = (⟨carpeta, ruta.base⟩ : Ruta) then fs ruta else fs ruta) = fs ruta
      rw [if_neg (fun hc => h (congrArg Ruta.dir hc))]

/-- Witness for C8: a file outside the originals directory is archived with
its content intact at both paths. -/
theorem c8_copia_a_originales_witness :
    (mover_a_originales
        (fun p => if p = ⟨"/docs", "bar.pptx"⟩ then some "contenido" else none)
        "/originales" ⟨"/docs", "bar.pptx"⟩).2 = ⟨"/originales", "bar.pptx"⟩ ∧
    (mover_a_originales
        (fun p => if p = ⟨"/docs", "bar.pptx"⟩ then some "contenido" else none)
        "/originales" ⟨"/docs", "bar.pptx"⟩).1 ⟨"/originales", "bar.pptx"⟩ =
      some "contenido" ∧
    (mover_a_originales
        (fun p => if p = ⟨"/docs", "bar.pptx"⟩ then some "contenido" else none)
        "/originales" ⟨"/docs", "bar.pptx"⟩).1 ⟨"/docs", "bar.pptx"⟩ = some "contenido" := by
  have h := (c8_copia_a_originales
    (fun p => if p = ⟨"/docs", "bar.pptx"⟩ then some "contenido" else none)
    "/originales" ⟨"/docs", "bar.pptx"⟩).2 (by decide)
  refine ⟨h.1, h.2.1.trans (by decide), h.2.2.trans (by decide)⟩

end Traductor
